import Mathlib

/-!
Verification of the SimpleNav3D navigation-volume plugin (`AOctNavVolume3D`).

This file gives a shallow embedding, in Lean, of the grid / octree /
pathfinding code of `OctNavVolume3D.cpp` and proves properties of it.

Modelling conventions:
* `float` / `FVector` coordinates are modelled exactly over `ℚ` (`Vec3`);
  `int32` values are modelled as `Int`.
* The engine collision services (`IsBoxBlocked`, `IsActorOverlapping`) are
  external collaborators of the core and appear as Boolean oracles
  (`Box3 → Bool`, `Vec3 → Bool`) passed to the embedded functions.
* The actor transform is modelled as a pure translation (`origin`), matching
  the supported configuration: `OnConstruction` warns that rotation and
  non-unit scale are ignored and must not be used.
* `FVector::Distance` (the Euclidean edge cost and heuristic of the A*)
  is a parameter `metric`; the pathfinder theorems either hold for every
  metric or assume only nonnegativity, which the Euclidean distance has.
* Loops of the source are modelled with explicit fuel; `std::priority_queue`
  is modelled by removing a minimum-`FScore` element of the open list.
-/

/-- Exact model of `FVector` (world-space position), components over `ℚ`. -/
structure Vec3 where
  x : ℚ
  y : ℚ
  z : ℚ
deriving DecidableEq, Repr

/-- Model of `FIntVector` (grid coordinates), components over `Int`. -/
structure FIntVector where
  x : Int
  y : Int
  z : Int
deriving DecidableEq, Repr

/-- Componentwise sum, used for `Node->Coordinates + Offset`. -/
def addIV (a b : FIntVector) : FIntVector :=
  ⟨a.x + b.x, a.y + b.y, a.z + b.z⟩

/-- Componentwise sum of world vectors. -/
def addV (a b : Vec3) : Vec3 :=
  ⟨a.x + b.x, a.y + b.y, a.z + b.z⟩

/-- Componentwise difference of world vectors. -/
def subV (a b : Vec3) : Vec3 :=
  ⟨a.x - b.x, a.y - b.y, a.z - b.z⟩

/--
Configuration of one `AOctNavVolume3D` actor: the `UPROPERTY` grid settings
(`DivisionsX/Y/Z`, `DivisionSize`, `MinSharedNeighborAxes`) together with the
actor world location (`origin`), which is the only part of the actor
transform the volume supports.
-/
structure NavConfig where
  divisionsX : Int
  divisionsY : Int
  divisionsZ : Int
  divisionSize : ℚ
  minSharedNeighborAxes : Int
  origin : Vec3
deriving DecidableEq, Repr

/-- Model of `FMath::Clamp(X, Min, Max)`: `X < Min ? Min : (X < Max ? X : Max)`. -/
def fclamp (v lo hi : Int) : Int :=
  if v < lo then lo else if v < hi then v else hi

/-- Model of `AOctNavVolume3D::AreCoordinatesValid`: coordinates lie inside the grid. -/
def areCoordinatesValid (cfg : NavConfig) (c : FIntVector) : Bool :=
  decide (0 ≤ c.x) && decide (c.x < cfg.divisionsX) &&
  decide (0 ≤ c.y) && decide (c.y < cfg.divisionsY) &&
  decide (0 ≤ c.z) && decide (c.z < cfg.divisionsZ)

/-- Model of `AOctNavVolume3D::ClampCoordinatesToGrid`: clamp each axis to the grid. -/
def clampCoordinatesToGrid (cfg : NavConfig) (c : FIntVector) : FIntVector :=
  ⟨fclamp c.x 0 (cfg.divisionsX - 1),
   fclamp c.y 0 (cfg.divisionsY - 1),
   fclamp c.z 0 (cfg.divisionsZ - 1)⟩

/--
Model of `AOctNavVolume3D::ConvertWorldLocationToGridCoordinates`: transform the world
point into grid space (inverse of the actor transform, here a translation),
divide by the cell size, take the floor and clamp each axis into the grid.
-/
def convertWorldLocationToGridCoordinates (cfg : NavConfig) (p : Vec3) : FIntVector :=
  let gridSpacePos := subV p cfg.origin
  ⟨fclamp ⌊gridSpacePos.x / cfg.divisionSize⌋ 0 (cfg.divisionsX - 1),
   fclamp ⌊gridSpacePos.y / cfg.divisionSize⌋ 0 (cfg.divisionsY - 1),
   fclamp ⌊gridSpacePos.z / cfg.divisionSize⌋ 0 (cfg.divisionsZ - 1)⟩

/--
Model of `AOctNavVolume3D::ConvertGridCoordinatesToWorldLocation`: clamp the
coordinates into the grid, take the cell-center local position
(`c * DivisionSize + DivisionSize/2` per axis) and apply the actor transform
(here: add the translation).
-/
def convertGridCoordinatesToWorldLocation (cfg : NavConfig) (c : FIntVector) : Vec3 :=
  let cc := clampCoordinatesToGrid cfg c
  let edgeToCenterOffset := cfg.divisionSize / 2
  addV ⟨cc.x * cfg.divisionSize + edgeToCenterOffset,
        cc.y * cfg.divisionSize + edgeToCenterOffset,
        cc.z * cfg.divisionSize + edgeToCenterOffset⟩ cfg.origin

/--
Model of `AOctNavVolume3D::GetNode`: clamp the coordinates, compute the flat array
index `z*(dx*dy) + y*dx + x` and fail (null) when the index is outside the
allocated array; otherwise the node at those clamped coordinates.
-/
def getNode (cfg : NavConfig) (c : FIntVector) : Option FIntVector :=
  let cc := clampCoordinatesToGrid cfg c
  let index := cc.z * (cfg.divisionsX * cfg.divisionsY) + cc.y * cfg.divisionsX + cc.x
  if index < 0 ∨ cfg.divisionsX * cfg.divisionsY * cfg.divisionsZ ≤ index then none
  else some cc

/--
Model of `AOctNavVolume3D::GetWorldAlignedVolumeBox` translated: the local box from
the zero vector to `(DivisionsX*DivisionSize, …)` shifted by the actor
location; used to say when a world point lies inside the volume.
-/
def worldAlignedVolumeMin (cfg : NavConfig) : Vec3 := cfg.origin

/-- Maximum corner of the world-aligned volume box. -/
def worldAlignedVolumeMax (cfg : NavConfig) : Vec3 :=
  addV cfg.origin ⟨cfg.divisionsX * cfg.divisionSize,
                   cfg.divisionsY * cfg.divisionSize,
                   cfg.divisionsZ * cfg.divisionSize⟩

/-- Whether a world point lies inside the world-aligned volume box. -/
def insideVolume (cfg : NavConfig) (p : Vec3) : Bool :=
  let mn := worldAlignedVolumeMin cfg
  let mx := worldAlignedVolumeMax cfg
  decide (mn.x ≤ p.x) && decide (p.x ≤ mx.x) &&
  decide (mn.y ≤ p.y) && decide (p.y ≤ mx.y) &&
  decide (mn.z ≤ p.z) && decide (p.z ≤ mx.z)

/--
The fixed neighbour offset template of `BeginPlay` (static array
`NeighbourOffsets`), in source order: the nine offsets of the layer above
(`z+1`), the eight offsets of the same layer (the zero offset is absent),
the nine offsets of the layer below (`z-1`).
-/
def neighbourOffsets : List FIntVector :=
  [⟨1, -1, 1⟩, ⟨1, 0, 1⟩, ⟨1, 1, 1⟩,
   ⟨0, -1, 1⟩, ⟨0, 0, 1⟩, ⟨0, 1, 1⟩,
   ⟨-1, -1, 1⟩, ⟨-1, 0, 1⟩, ⟨-1, 1, 1⟩,
   ⟨1, -1, 0⟩, ⟨1, 0, 0⟩, ⟨1, 1, 0⟩,
   ⟨0, -1, 0⟩, ⟨0, 1, 0⟩,
   ⟨-1, -1, 0⟩, ⟨-1, 0, 0⟩, ⟨-1, 1, 0⟩,
   ⟨1, -1, -1⟩, ⟨1, 0, -1⟩, ⟨1, 1, -1⟩,
   ⟨0, -1, -1⟩, ⟨0, 0, -1⟩, ⟨0, 1, -1⟩,
   ⟨-1, -1, -1⟩, ⟨-1, 0, -1⟩, ⟨-1, 1, -1⟩]

/--
The shared-axis count of the `AddNeighbour` lambda of `BeginPlay`: the number
of coordinate axes on which the node and the candidate neighbour agree.
-/
def sharedAxes (a b : FIntVector) : Int :=
  (if a.x = b.x then 1 else 0) + (if a.y = b.y then 1 else 0) +
  (if a.z = b.z then 1 else 0)

/--
The neighbour list a cell receives in `BeginPlay`: each template offset is
applied, candidates outside the grid are ignored, and a candidate is linked
exactly when `MinSharedNeighborAxes ≤ sharedAxes < 3` (the `AddNeighbour`
lambda; the stored node is `GetNode(NCoord)`, whose coordinates are `NCoord`
because the candidate is in bounds).
-/
def neighboursOf (cfg : NavConfig) (c : FIntVector) : List FIntVector :=
  neighbourOffsets.filterMap fun off =>
    let nCoord := addIV c off
    if areCoordinatesValid cfg nCoord &&
       decide (cfg.minSharedNeighborAxes ≤ sharedAxes c nCoord) &&
       decide (sharedAxes c nCoord < 3)
    then some nCoord else none

/-! ### Concrete configurations used by witnesses and counterexamples -/

/-- A 3x3x3 grid with full 26-connectivity (`MinSharedNeighborAxes = 0`). -/
def cfg3 : NavConfig :=
  { divisionsX := 3, divisionsY := 3, divisionsZ := 3,
    divisionSize := 100, minSharedNeighborAxes := 0, origin := ⟨0, 0, 0⟩ }

/-- All 27 cells of the 3x3x3 grid. -/
def cells3 : List FIntVector :=
  (List.range 3).flatMap fun z =>
    (List.range 3).flatMap fun y =>
      (List.range 3).map fun x => ⟨(x : Int), (y : Int), (z : Int)⟩

/--
The neighbour count the spec predicts for a cell of the 3x3x3 grid, by
position class: 7 for the 8 corners, 11 for the 12 edge cells, 17 for the 6
face cells, 26 for the interior cell (classified by how many coordinates are
extreme, i.e. `0` or `2`).
-/
def expectedNeighbourCount3 (c : FIntVector) : Nat :=
  let extremes : Nat :=
    (if c.x = 0 ∨ c.x = 2 then 1 else 0) + (if c.y = 0 ∨ c.y = 2 then 1 else 0) +
    (if c.z = 0 ∨ c.z = 2 then 1 else 0)
  if extremes = 3 then 7 else if extremes = 2 then 11 else
  if extremes = 1 then 17 else 26

/-! ## Claim C4: the neighbour offset template -/

/--
C4, counterexample: the claim says the 26-offset template contains no offset
changing x, y and z simultaneously.  In the source, the template's very third
entry is `{1, 1, 1}`, which changes every axis: the cell/candidate pair it
generates shares no axis (`sharedAxes = 0`).
-/
theorem c4_counterexample :
    (⟨1, 1, 1⟩ : FIntVector) ∈ neighbourOffsets ∧
    sharedAxes ⟨0, 0, 0⟩ (addIV ⟨0, 0, 0⟩ ⟨1, 1, 1⟩) = 0 := by
  decide

/--
C4, amended: the template consists of exactly the 26 nonzero offsets with
components in `{-1, 0, 1}`; 18 of them leave at least one axis unchanged and
the remaining 8 are full diagonals changing all three axes (`sharedAxes = 0`
with their base cell), so full-diagonal neighbours are linked whenever
`MinSharedNeighborAxes = 0`.
-/
theorem c4_amended_template :
    neighbourOffsets.length = 26 ∧
    (neighbourOffsets.all fun o =>
      decide (o ≠ ⟨0, 0, 0⟩) &&
      decide (o.x = -1 ∨ o.x = 0 ∨ o.x = 1) &&
      decide (o.y = -1 ∨ o.y = 0 ∨ o.y = 1) &&
      decide (o.z = -1 ∨ o.z = 0 ∨ o.z = 1)) = true ∧
    (neighbourOffsets.filter fun o =>
      decide (sharedAxes ⟨0, 0, 0⟩ (addIV ⟨0, 0, 0⟩ o) = 0)).length = 8 ∧
    neighbourOffsets.Nodup := by
  decide

/-! ## Claim C5: stored neighbours are valid and share enough axes -/

/--
C5: after the adjacency build, every neighbour `n` stored for a cell `c` has
in-bounds coordinates (`AreCoordinatesValid`) and shares at least
`MinSharedNeighborAxes` coordinate axes with `c` — both facts come from the
guard of the `AddNeighbour` lambda, which links a candidate only when it is
valid and `MinSharedNeighborAxes ≤ sharedAxes < 3`.
-/
theorem c5_neighbours_valid_and_shared (cfg : NavConfig) (c n : FIntVector)
    (h : n ∈ neighboursOf cfg c) :
    areCoordinatesValid cfg n = true ∧ cfg.minSharedNeighborAxes ≤ sharedAxes c n := by
  unfold neighboursOf at h
  rcases List.mem_filterMap.mp h with ⟨off, _, hoff⟩
  by_cases hcond :
      (areCoordinatesValid cfg (addIV c off) &&
        decide (cfg.minSharedNeighborAxes ≤ sharedAxes c (addIV c off)) &&
        decide (sharedAxes c (addIV c off) < 3)) = true
  · simp only [hcond, if_true, Option.some.injEq] at hoff
    subst hoff
    simp only [Bool.and_eq_true, decide_eq_true_eq] at hcond
    exact ⟨hcond.1.1, hcond.1.2⟩
  · simp only [Bool.not_eq_true] at hcond
    simp [hcond] at hoff

/-- C5 witness: a concrete stored neighbour of cell `(0,0,0)` in the 3x3x3 grid. -/
theorem c5_witness :
    areCoordinatesValid cfg3 ⟨1, 1, 1⟩ = true ∧
    cfg3.minSharedNeighborAxes ≤ sharedAxes ⟨0, 0, 0⟩ ⟨1, 1, 1⟩ :=
  c5_neighbours_valid_and_shared cfg3 ⟨0, 0, 0⟩ ⟨1, 1, 1⟩ (by decide)

/-! ## Claim C6: neighbour counts on the unobstructed 3x3x3 grid -/

/--
C6: with `MinSharedNeighborAxes = 0` on the 3x3x3 grid, every one of the 27
cells receives exactly the neighbour count dictated by its position class:
corners 7, edge cells 11, face cells 17, the interior cell 26.  (`cells3`
enumerates the 27 distinct in-bounds cells.)
-/
theorem c6_neighbour_counts_3x3x3 :
    cells3.length = 27 ∧ cells3.Nodup ∧
    (cells3.all fun c => areCoordinatesValid cfg3 c) = true ∧
    (cells3.all fun c =>
      (neighboursOf cfg3 c).length == expectedNeighbourCount3 c) = true := by
  decide

/-! ## Claim C10: round-trip of cell-center conversions -/

/--
C10: for a valid grid (all dimensions at least 1, positive cell size; the
actor transform is the volume's supported translation-only form), converting
an in-bounds cell to its cell-center world position and back returns the same
cell.
-/
theorem c10_roundtrip (cfg : NavConfig) (c : FIntVector)
    (hx : 1 ≤ cfg.divisionsX) (hy : 1 ≤ cfg.divisionsY) (hz : 1 ≤ cfg.divisionsZ)
    (hs : 0 < cfg.divisionSize)
    (hc : areCoordinatesValid cfg c = true) :
    convertWorldLocationToGridCoordinates cfg
      (convertGridCoordinatesToWorldLocation cfg c) = c := by
  simp only [areCoordinatesValid, Bool.and_eq_true, decide_eq_true_eq] at hc
  obtain ⟨⟨⟨⟨⟨hx0, hx1⟩, hy0⟩, hy1⟩, hz0⟩, hz1⟩ := hc
  have hclamp : clampCoordinatesToGrid cfg c = c := by
    simp only [clampCoordinatesToGrid, fclamp]
    have ex : (if c.x < 0 then 0 else if c.x < cfg.divisionsX - 1 then c.x
        else cfg.divisionsX - 1) = c.x := by omega
    have ey : (if c.y < 0 then 0 else if c.y < cfg.divisionsY - 1 then c.y
        else cfg.divisionsY - 1) = c.y := by omega
    have ez : (if c.z < 0 then 0 else if c.z < cfg.divisionsZ - 1 then c.z
        else cfg.divisionsZ - 1) = c.z := by omega
    rw [ex, ey, ez]
  have hsne : cfg.divisionSize ≠ 0 := ne_of_gt hs
  have key : ∀ (k : Int), (↑k * cfg.divisionSize + cfg.divisionSize / 2) /
      cfg.divisionSize = (k : ℚ) + 1 / 2 := by
    intro k
    field_simp
    ring
  have floorkey : ∀ (k : Int), ⌊(k : ℚ) + 1 / 2⌋ = k := by
    intro k
    rw [Int.floor_int_add]
    norm_num
  simp only [convertWorldLocationToGridCoordinates,
    convertGridCoordinatesToWorldLocation, hclamp, addV, subV]
  have simpx : (c.x : ℚ) * cfg.divisionSize + cfg.divisionSize / 2 +
      cfg.origin.x - cfg.origin.x =
      (c.x : ℚ) * cfg.divisionSize + cfg.divisionSize / 2 := by ring
  have simpy : (c.y : ℚ) * cfg.divisionSize + cfg.divisionSize / 2 +
      cfg.origin.y - cfg.origin.y =
      (c.y : ℚ) * cfg.divisionSize + cfg.divisionSize / 2 := by ring
  have simpz : (c.z : ℚ) * cfg.divisionSize + cfg.divisionSize / 2 +
      cfg.origin.z - cfg.origin.z =
      (c.z : ℚ) * cfg.divisionSize + cfg.divisionSize / 2 := by ring
  simp only [simpx, simpy, simpz, key, floorkey, fclamp]
  have ex : (if c.x < 0 then 0 else if c.x < cfg.divisionsX - 1 then c.x
      else cfg.divisionsX - 1) = c.x := by omega
  have ey : (if c.y < 0 then 0 else if c.y < cfg.divisionsY - 1 then c.y
      else cfg.divisionsY - 1) = c.y := by omega
  have ez : (if c.z < 0 then 0 else if c.z < cfg.divisionsZ - 1 then c.z
      else cfg.divisionsZ - 1) = c.z := by omega
  rw [ex, ey, ez]

/-- C10 witness: the round trip at cell `(1, 2, 0)` of the 3x3x3 grid. -/
theorem c10_witness :
    areCoordinatesValid cfg3 ⟨1, 2, 0⟩ = true ∧
    convertWorldLocationToGridCoordinates cfg3
      (convertGridCoordinatesToWorldLocation cfg3 ⟨1, 2, 0⟩) = ⟨1, 2, 0⟩ :=
  ⟨by decide,
   c10_roundtrip cfg3 ⟨1, 2, 0⟩ (by decide) (by decide) (by decide)
     (by norm_num [cfg3]) (by decide)⟩

/-! ## Octree model (`FOctreeNode`, `BuildOctree`, `QueryPointBlocked`) -/

/-- Model of `FBox`: an axis-aligned box given by its two corners. -/
structure Box3 where
  min : Vec3
  max : Vec3
deriving DecidableEq, Repr

/-- Model of `FBox::GetCenter`: the midpoint of the two corners. -/
def boxCenter (b : Box3) : Vec3 :=
  ⟨(b.min.x + b.max.x) / 2, (b.min.y + b.max.y) / 2, (b.min.z + b.max.z) / 2⟩

/-- The longest side of a box (`FMath::Max3` of `GetSize()` components). -/
def maxSideOf (b : Box3) : ℚ :=
  max (b.max.x - b.min.x) (max (b.max.y - b.min.y) (b.max.z - b.min.z))

/-- The `KINDA_SMALL_NUMBER` constant of the engine, used by the leaf-size tolerance. -/
def kindaSmallNumber : ℚ := 1 / 10000

/--
The eight child boxes `BuildOctree` creates for an internal node, in source
order (`ChildBoxes[0] .. ChildBoxes[7]`): octants of the box split at its
center, low/high in x (bit 0), y (bit 1), z (bit 2).
-/
def octantBoxes (b : Box3) : List Box3 :=
  let c := boxCenter b
  let mn := b.min
  let mx := b.max
  [⟨⟨mn.x, mn.y, mn.z⟩, ⟨c.x, c.y, c.z⟩⟩,
   ⟨⟨c.x, mn.y, mn.z⟩, ⟨mx.x, c.y, c.z⟩⟩,
   ⟨⟨mn.x, c.y, mn.z⟩, ⟨c.x, mx.y, c.z⟩⟩,
   ⟨⟨c.x, c.y, mn.z⟩, ⟨mx.x, mx.y, c.z⟩⟩,
   ⟨⟨mn.x, mn.y, c.z⟩, ⟨c.x, c.y, mx.z⟩⟩,
   ⟨⟨c.x, mn.y, c.z⟩, ⟨mx.x, c.y, mx.z⟩⟩,
   ⟨⟨mn.x, c.y, c.z⟩, ⟨c.x, mx.y, mx.z⟩⟩,
   ⟨⟨c.x, c.y, c.z⟩, ⟨mx.x, mx.y, mx.z⟩⟩]

/--
The child octant index `QueryPointBlocked` computes for a point: bit 0 set
when `x >= center.x`, bit 1 when `y >= center.y`, bit 2 when `z >= center.z`
(the source's bitwise-or of shifted bits, written as a sum of the disjoint
bit values).
-/
def childIndex (b : Box3) (p : Vec3) : Nat :=
  let c := boxCenter b
  (if c.x ≤ p.x then 1 else 0) + (if c.y ≤ p.y then 2 else 0) +
  (if c.z ≤ p.z then 4 else 0)

/--
Model of `FOctreeNode`: bounds, leaf flag, blocked flag and the list of
present (non-null) children, in child-index order.  The C++ struct holds a
nullable 8-slot array; a list of the present children represents it, so that
"all 8 children present" is a provable property rather than a typing
artifact.
-/
inductive FOctreeNode where
  | mk (bounds : Box3) (bIsLeaf : Bool) (bBlocked : Bool)
       (children : List FOctreeNode)

/-- The bounds of a node. -/
def FOctreeNode.bounds : FOctreeNode → Box3
  | .mk b _ _ _ => b

/-- The leaf flag of a node. -/
def FOctreeNode.bIsLeaf : FOctreeNode → Bool
  | .mk _ l _ _ => l

/-- The blocked flag of a node. -/
def FOctreeNode.bBlocked : FOctreeNode → Bool
  | .mk _ _ bl _ => bl

/-- The children list of a node. -/
def FOctreeNode.children : FOctreeNode → List FOctreeNode
  | .mk _ _ _ cs => cs

/--
Model of `AOctNavVolume3D::BuildOctree`, with the engine box-overlap query abstracted
as the oracle `isBoxBlocked`.  A node whose box's longest side is at most
`OctreeMinCellSize + KINDA_SMALL_NUMBER`, or whose depth has reached
`OctreeMaxDepth`, becomes a leaf whose blocked flag is the oracle's answer;
otherwise the box is split into its eight octants and each is built at depth
`+1` (the source's `bAllBlocked` aggregate is computed but unused).
-/
def buildOctree (isBoxBlocked : Box3 → Bool) (octreeMinCellSize : ℚ)
    (octreeMaxDepth : Nat) (inBox : Box3) (inDepth : Nat) : FOctreeNode :=
  if h : (decide (maxSideOf inBox ≤ octreeMinCellSize + kindaSmallNumber) ||
          decide (octreeMaxDepth ≤ inDepth)) = true then
    .mk inBox true (isBoxBlocked inBox) []
  else
    .mk inBox false false
      ((octantBoxes inBox).map fun cb =>
        buildOctree isBoxBlocked octreeMinCellSize octreeMaxDepth cb (inDepth + 1))
termination_by octreeMaxDepth - inDepth
decreasing_by
  simp only [Bool.or_eq_true, decide_eq_true_eq, not_or, not_le] at h
  omega

mutual

/--
The descent loop of `AOctNavVolume3D::QueryPointBlocked`: while the current
node is non-null and not a leaf, step to the child at the computed octant
index; a null child ends the loop with "not blocked", a leaf returns its
blocked flag.
-/
def queryPointDescend (p : Vec3) : FOctreeNode → Bool
  | .mk b leaf blocked children =>
    if leaf then blocked
    else queryPointChild p (childIndex b p) children

/--
Selection of `Children[CorrectChildIndex]` followed by the continued
descent: an absent (null) slot makes the loop exit with the null current
node, which `QueryPointBlocked` reports as not blocked.
-/
def queryPointChild (p : Vec3) : Nat → List FOctreeNode → Bool
  | _, [] => false
  | 0, c :: _ => queryPointDescend p c
  | n + 1, _ :: cs => queryPointChild p n cs

end

/--
Model of `AOctNavVolume3D::QueryPointBlocked`: `false` when no octree has been built
(`OctreeRoot` null), otherwise the descent from the root.
-/
def queryPointBlocked (root : Option FOctreeNode) (p : Vec3) : Bool :=
  match root with
  | none => false
  | some t => queryPointDescend p t

mutual

/-- All leaf nodes of an octree. -/
def leavesOf : FOctreeNode → List FOctreeNode
  | .mk b leaf blocked children =>
    if leaf then [.mk b leaf blocked children]
    else leavesOfAll children

/-- All leaf nodes below a list of sibling subtrees, in order. -/
def leavesOfAll : List FOctreeNode → List FOctreeNode
  | [] => []
  | c :: cs => leavesOf c ++ leavesOfAll cs

end

/-- Whether a box has its minimum corner at most its maximum corner. -/
def boxProperB (b : Box3) : Bool :=
  decide (b.min.x ≤ b.max.x) && decide (b.min.y ≤ b.max.y) &&
  decide (b.min.z ≤ b.max.z)

mutual

/--
The shape produced by `BuildOctree` at each node: the box is proper, a leaf
has no children, and an internal node's children carry exactly the eight
octant boxes of its box (split at the center), in order, each subdivided in
turn.
-/
def subdividedB : FOctreeNode → Bool
  | .mk b leaf _ children =>
    boxProperB b &&
    (if leaf then children.isEmpty
     else (children.map FOctreeNode.bounds == octantBoxes b) &&
       subdividedAll children)

/-- Conjunction of `subdividedB` over each subtree of a list of siblings. -/
def subdividedAll : List FOctreeNode → Bool
  | [] => true
  | c :: cs => subdividedB c && subdividedAll cs

end

/-- Whether a point is strictly inside a box (strict on every face). -/
def strictlyInsideB (p : Vec3) (b : Box3) : Bool :=
  decide (b.min.x < p.x) && decide (p.x < b.max.x) &&
  decide (b.min.y < p.y) && decide (p.y < b.max.y) &&
  decide (b.min.z < p.z) && decide (p.z < b.max.z)

/--
The leaf condition of `BuildOctree` at a given box and depth: the longest
side is within tolerance of the minimum leaf size, or the maximum depth has
been reached.
-/
def leafCondB (octreeMinCellSize : ℚ) (octreeMaxDepth : Nat) (b : Box3)
    (depth : Nat) : Bool :=
  decide (maxSideOf b ≤ octreeMinCellSize + kindaSmallNumber) ||
  decide (octreeMaxDepth ≤ depth)

mutual

/--
Structural well-formedness of an octree rooted at recursion depth `depth`:
a leaf has no children and satisfies the leaf condition; an internal node
fails the leaf condition, has exactly 8 children (all present and non-null),
and each child is well-formed at depth `+1`.
-/
def wfOctreeB (octreeMinCellSize : ℚ) (octreeMaxDepth : Nat) :
    Nat → FOctreeNode → Bool
  | depth, .mk b leaf _ children =>
    if leaf then children.isEmpty && leafCondB octreeMinCellSize octreeMaxDepth b depth
    else (!leafCondB octreeMinCellSize octreeMaxDepth b depth) &&
      (children.length == 8) &&
      wfOctreeAll octreeMinCellSize octreeMaxDepth (depth + 1) children

/-- Conjunction of `wfOctreeB` over each subtree of a list of siblings, all at one depth. -/
def wfOctreeAll (octreeMinCellSize : ℚ) (octreeMaxDepth : Nat) :
    Nat → List FOctreeNode → Bool
  | _, [] => true
  | depth, c :: cs => wfOctreeB octreeMinCellSize octreeMaxDepth depth c &&
      wfOctreeAll octreeMinCellSize octreeMaxDepth depth cs

end

/-- The octant split always produces exactly eight child boxes. -/
theorem octantBoxes_length (b : Box3) : (octantBoxes b).length = 8 := rfl

/-- A sibling list is well-formed when each of its members is. -/
theorem wfOctreeAll_of_forall (m : ℚ) (md d : Nat) :
    ∀ (cs : List FOctreeNode), (∀ c ∈ cs, wfOctreeB m md d c = true) →
      wfOctreeAll m md d cs = true := by
  intro cs
  induction cs with
  | nil => intro _; rfl
  | cons c cs ih =>
    intro h
    simp only [wfOctreeAll, Bool.and_eq_true]
    exact ⟨h c (by simp), ih fun x hx => h x (by simp [hx])⟩

/-- Auxiliary induction for the octree build invariant, on remaining depth. -/
theorem buildOctree_wf_aux (oracle : Box3 → Bool) (minCell : ℚ) (maxDepth : Nat) :
    ∀ (n : Nat) (box : Box3) (depth : Nat), maxDepth - depth ≤ n →
      wfOctreeB minCell maxDepth depth
        (buildOctree oracle minCell maxDepth box depth) = true := by
  intro n
  induction n with
  | zero =>
    intro box depth hn
    have hd : maxDepth ≤ depth := by omega
    rw [buildOctree, dif_pos (by simp [hd])]
    simp [wfOctreeB, leafCondB, hd]
  | succ n ih =>
    intro box depth hn
    by_cases hcond : (decide (maxSideOf box ≤ minCell + kindaSmallNumber) ||
        decide (maxDepth ≤ depth)) = true
    · rw [buildOctree, dif_pos hcond]
      simp only [wfOctreeB, if_true, List.isEmpty_nil, Bool.true_and]
      simpa [leafCondB] using hcond
    · rw [buildOctree, dif_neg hcond]
      have hdlt : depth < maxDepth := by
        simp only [Bool.or_eq_true, decide_eq_true_eq, not_or, not_le] at hcond
        omega
      have h1 : leafCondB minCell maxDepth box depth = false := by
        simpa [leafCondB] using hcond
      have h3 : wfOctreeAll minCell maxDepth (depth + 1)
          ((octantBoxes box).map fun cb =>
            buildOctree oracle minCell maxDepth cb (depth + 1)) = true := by
        apply wfOctreeAll_of_forall
        intro c hc
        rcases List.mem_map.mp hc with ⟨cb, _, hcb⟩
        subst hcb
        exact ih cb (depth + 1) (by omega)
      simp [wfOctreeB, h1, h3, octantBoxes_length]

/--
C7: every tree returned by `BuildOctree` is well-formed: leaves have no
children and satisfy the leaf condition (longest side within
`KINDA_SMALL_NUMBER` of the minimum leaf size, or maximum depth reached);
internal nodes fail the leaf condition and have all eight children present
and non-null, recursively well-formed at depth `+1`.
-/
theorem c7_build_invariants (oracle : Box3 → Bool) (minCell : ℚ)
    (maxDepth : Nat) (box : Box3) (depth : Nat) :
    wfOctreeB minCell maxDepth depth
      (buildOctree oracle minCell maxDepth box depth) = true :=
  buildOctree_wf_aux oracle minCell maxDepth (maxDepth - depth) box depth le_rfl

/-- A leaf below a sibling list is a leaf below one of the siblings. -/
theorem mem_leavesOfAll {L : FOctreeNode} :
    ∀ {cs : List FOctreeNode}, L ∈ leavesOfAll cs → ∃ c ∈ cs, L ∈ leavesOf c := by
  intro cs
  induction cs with
  | nil => intro h; simp [leavesOfAll] at h
  | cons c cs ih =>
    intro h
    simp only [leavesOfAll, List.mem_append] at h
    rcases h with h | h
    · exact ⟨c, by simp, h⟩
    · rcases ih h with ⟨d, hd, hLd⟩
      exact ⟨d, by simp [hd], hLd⟩

/-- A member of a subdivided sibling list is subdivided. -/
theorem subdividedAll_mem {c : FOctreeNode} :
    ∀ {cs : List FOctreeNode}, subdividedAll cs = true → c ∈ cs →
      subdividedB c = true := by
  intro cs
  induction cs with
  | nil => intro _ h; simp at h
  | cons d ds ih =>
    intro hall h
    simp only [subdividedAll, Bool.and_eq_true] at hall
    rcases List.mem_cons.mp h with h | h
    · exact h ▸ hall.1
    · exact ih hall.2 h

/-- Child selection agrees with list indexing when the slot is present. -/
theorem queryPointChild_eq (p : Vec3) :
    ∀ (cs : List FOctreeNode) (k : Nat) (c : FOctreeNode), cs[k]? = some c →
      queryPointChild p k cs = queryPointDescend p c := by
  intro cs
  induction cs with
  | nil => intro k c h; simp at h
  | cons d ds ih =>
    intro k c h
    cases k with
    | zero =>
      simp only [List.getElem?_cons_zero, Option.some.injEq] at h
      subst h
      rfl
    | succ k =>
      simp only [List.getElem?_cons_succ] at h
      exact ih k c h

/--
A point strictly inside the `k`-th octant of a proper box descends to child
index `k` (so the octant-index formula of the query selects exactly the
octant the point is in) and is strictly inside the parent box.
-/
theorem octant_strict (b : Box3) (p : Vec3) (k : Nat) (ob : Box3)
    (hprop : boxProperB b = true) (hget : (octantBoxes b)[k]? = some ob)
    (hin : strictlyInsideB p ob = true) :
    childIndex b p = k ∧ strictlyInsideB p b = true := by
  simp only [boxProperB, Bool.and_eq_true, decide_eq_true_eq] at hprop
  obtain ⟨⟨hpx, hpy⟩, hpz⟩ := hprop
  rcases k with _ | _ | _ | _ | _ | _ | _ | _ | k <;>
    simp only [octantBoxes, List.getElem?_cons_zero, List.getElem?_cons_succ,
      List.getElem?_nil, Option.some.injEq, reduceCtorEq] at hget <;>
    subst hget <;>
    simp only [strictlyInsideB, boxCenter, Bool.and_eq_true, decide_eq_true_eq] at hin ⊢ <;>
    obtain ⟨⟨⟨⟨⟨h1, h2⟩, h3⟩, h4⟩, h5⟩, h6⟩ := hin <;>
    refine ⟨?_, ⟨⟨⟨⟨⟨by linarith, by linarith⟩, by linarith⟩, by linarith⟩,
      by linarith⟩, by linarith⟩⟩ <;>
    simp only [childIndex, boxCenter] <;>
    split_ifs <;> norm_num <;> linarith

/--
A point strictly inside a leaf's box of a subdivided tree is strictly inside
the box of the whole tree (auxiliary, by strong induction on tree size).
-/
theorem leaf_inside_parent :
    ∀ (n : Nat) (t L : FOctreeNode) (p : Vec3), sizeOf t ≤ n →
      subdividedB t = true → L ∈ leavesOf t →
      strictlyInsideB p L.bounds = true →
      strictlyInsideB p t.bounds = true := by
  intro n
  induction n with
  | zero =>
    intro t L p hsz
    exfalso
    obtain ⟨b, leaf, bl, cs⟩ := t
    simp only [FOctreeNode.mk.sizeOf_spec] at hsz
    omega
  | succ n ih =>
    intro t L p hsz hsub hmem hin
    obtain ⟨b, leaf, bl, cs⟩ := t
    simp only [subdividedB, Bool.and_eq_true] at hsub
    obtain ⟨hprop, hrest⟩ := hsub
    cases leaf with
    | true =>
      simp only [leavesOf, if_true, List.mem_singleton] at hmem
      subst hmem
      simpa [FOctreeNode.bounds] using hin
    | false =>
      simp only [Bool.false_eq_true, if_false] at hrest
      simp only [Bool.and_eq_true, beq_iff_eq] at hrest
      obtain ⟨hmap, hall⟩ := hrest
      simp only [leavesOf, Bool.false_eq_true, if_false] at hmem
      rcases mem_leavesOfAll hmem with ⟨c, hc, hLc⟩
      have hsubc := subdividedAll_mem hall hc
      have hszc : sizeOf c ≤ n := by
        have h1 := List.sizeOf_lt_of_mem hc
        simp only [FOctreeNode.mk.sizeOf_spec] at hsz
        omega
      have hinc := ih c L p hszc hsubc hLc hin
      obtain ⟨k, hk, hck⟩ := List.mem_iff_getElem.mp hc
      have hbc : (octantBoxes b)[k]? = some c.bounds := by
        have hcs : cs[k]? = some c := List.getElem?_eq_some_iff.mpr ⟨hk, hck⟩
        have hmapped : (cs.map FOctreeNode.bounds)[k]? = some c.bounds := by
          simp [List.getElem?_map, hcs]
        rwa [hmap] at hmapped
      have hoct := octant_strict b p k c.bounds hprop hbc hinc
      simpa [FOctreeNode.bounds] using hoct.2

/--
On a subdivided tree, the octree descent applied to a point strictly inside
one of the leaves reaches exactly that leaf and returns its blocked flag
(auxiliary, by strong induction on tree size).
-/
theorem queryDescend_eq_leaf :
    ∀ (n : Nat) (t L : FOctreeNode) (p : Vec3), sizeOf t ≤ n →
      subdividedB t = true → L ∈ leavesOf t →
      strictlyInsideB p L.bounds = true →
      queryPointDescend p t = L.bBlocked := by
  intro n
  induction n with
  | zero =>
    intro t L p hsz
    exfalso
    obtain ⟨b, leaf, bl, cs⟩ := t
    simp only [FOctreeNode.mk.sizeOf_spec] at hsz
    omega
  | succ n ih =>
    intro t L p hsz hsub hmem hin
    obtain ⟨b, leaf, bl, cs⟩ := t
    simp only [subdividedB, Bool.and_eq_true] at hsub
    obtain ⟨hprop, hrest⟩ := hsub
    cases leaf with
    | true =>
      simp only [leavesOf, if_true, List.mem_singleton] at hmem
      subst hmem
      simp [queryPointDescend, FOctreeNode.bBlocked]
    | false =>
      simp only [Bool.false_eq_true, if_false] at hrest
      simp only [Bool.and_eq_true, beq_iff_eq] at hrest
      obtain ⟨hmap, hall⟩ := hrest
      simp only [leavesOf, Bool.false_eq_true, if_false] at hmem
      rcases mem_leavesOfAll hmem with ⟨c, hc, hLc⟩
      have hsubc := subdividedAll_mem hall hc
      have hszc : sizeOf c ≤ n := by
        have h1 := List.sizeOf_lt_of_mem hc
        simp only [FOctreeNode.mk.sizeOf_spec] at hsz
        omega
      have hinc := leaf_inside_parent (sizeOf c) c L p le_rfl hsubc hLc hin
      obtain ⟨k, hk, hck⟩ := List.mem_iff_getElem.mp hc
      have hcs : cs[k]? = some c := List.getElem?_eq_some_iff.mpr ⟨hk, hck⟩
      have hbc : (octantBoxes b)[k]? = some c.bounds := by
        have hmapped : (cs.map FOctreeNode.bounds)[k]? = some c.bounds := by
          simp [List.getElem?_map, hcs]
        rwa [hmap] at hmapped
      have hidx := (octant_strict b p k c.bounds hprop hbc hinc).1
      calc queryPointDescend p (.mk b false bl cs)
        _ = queryPointChild p (childIndex b p) cs := by
            simp [queryPointDescend]
        _ = queryPointChild p k cs := by rw [hidx]
        _ = queryPointDescend p c := queryPointChild_eq p cs k c hcs
        _ = L.bBlocked := ih c L p hszc hsubc hLc hin

/--
C3: the octree point query descends from the root choosing at each internal
node the child whose index is `(x>=cx) | (y>=cy)<<1 | (z>=cz)<<2` against the
node's box center; on a point strictly inside a leaf of a subdivided tree it
returns exactly that leaf's blocked flag — `true` for a blocked leaf, `false`
for a free leaf — and it returns `false` unconditionally when no tree has
been built (`OctreeRoot` null).
-/
theorem c3_query_returns_leaf_flag (t L : FOctreeNode) (p : Vec3)
    (hsub : subdividedB t = true) (hmem : L ∈ leavesOf t)
    (hin : strictlyInsideB p L.bounds = true) :
    queryPointBlocked (some t) p = L.bBlocked ∧
    ∀ q, queryPointBlocked none q = false :=
  ⟨queryDescend_eq_leaf (sizeOf t) t L p le_rfl hsub hmem hin, fun _ => rfl⟩

/-- A concrete subdivided octree used by the C3 witness: one split, 8 leaves. -/
def treeC3 : FOctreeNode :=
  .mk ⟨⟨0, 0, 0⟩, ⟨4, 4, 4⟩⟩ false false
    [.mk ⟨⟨0, 0, 0⟩, ⟨2, 2, 2⟩⟩ true true [],
     .mk ⟨⟨2, 0, 0⟩, ⟨4, 2, 2⟩⟩ true false [],
     .mk ⟨⟨0, 2, 0⟩, ⟨2, 4, 2⟩⟩ true false [],
     .mk ⟨⟨2, 2, 0⟩, ⟨4, 4, 2⟩⟩ true false [],
     .mk ⟨⟨0, 0, 2⟩, ⟨2, 2, 4⟩⟩ true false [],
     .mk ⟨⟨2, 0, 2⟩, ⟨4, 2, 4⟩⟩ true false [],
     .mk ⟨⟨0, 2, 2⟩, ⟨2, 4, 4⟩⟩ true false [],
     .mk ⟨⟨2, 2, 2⟩, ⟨4, 4, 4⟩⟩ true true []]

/-- The blocked low-corner leaf of `treeC3`. -/
def leafC3 : FOctreeNode := .mk ⟨⟨0, 0, 0⟩, ⟨2, 2, 2⟩⟩ true true []

/-- C3 witness: the query at a point strictly inside the blocked leaf. -/
theorem c3_witness :
    subdividedB treeC3 = true ∧
    (queryPointBlocked (some treeC3) ⟨1, 1, 1⟩ = leafC3.bBlocked ∧
     ∀ q, queryPointBlocked none q = false) :=
  ⟨by with_unfolding_all decide,
   c3_query_returns_leaf_flag treeC3 leafC3 ⟨1, 1, 1⟩ (by with_unfolding_all decide)
     (List.getElem?_mem (show (leavesOf treeC3)[0]? = some leafC3 from rfl))
     (by decide)⟩

/-! ## Nearest free node search (`FindNearestFreeNode`, BFS) -/

/--
Whether a cell is unusable for the searches: statically blocked per the
octree at its cell-center world position (only when an octree exists, the
`OctreeRoot &&` guard), or reported overlapped by the live capsule query
(the `IsActorOverlapping` oracle).
-/
def cellBlockedB (cfg : NavConfig) (oct : Option FOctreeNode)
    (overlap : Vec3 → Bool) (c : FIntVector) : Bool :=
  (oct.isSome && queryPointBlocked oct (convertGridCoordinatesToWorldLocation cfg c)) ||
  overlap (convertGridCoordinatesToWorldLocation cfg c)

/--
The BFS loop of `AOctNavVolume3D::FindNearestFreeNode`: dequeue a node;
if it is neither statically blocked (octree) nor dynamically overlapped,
return it; otherwise enqueue its unvisited neighbours (marking them visited
as they are enqueued) and continue.  The C++ `while (!Queue.IsEmpty())` loop
is given explicit fuel.
-/
def bfsLoop (cfg : NavConfig) (oct : Option FOctreeNode) (overlap : Vec3 → Bool) :
    Nat → List FIntVector → List FIntVector → Option FIntVector
  | 0, _, _ => none
  | fuel + 1, queue, visited =>
    match queue with
    | [] => none
    | cur :: rest =>
      let w := convertGridCoordinatesToWorldLocation cfg cur
      if !(oct.isSome && queryPointBlocked oct w) && !(overlap w) then some cur
      else
        let qv := (neighboursOf cfg cur).foldl
          (fun (acc : List FIntVector × List FIntVector) nb =>
            if nb ∈ acc.2 then acc else (acc.1 ++ [nb], acc.2 ++ [nb]))
          (rest, visited)
        bfsLoop cfg oct overlap fuel qv.1 qv.2

/--
Model of `AOctNavVolume3D::FindNearestFreeNode`: null (`none`) when the seed node is
missing or out of bounds, otherwise the BFS from the seed with the seed
initially enqueued and visited.
-/
def findNearestFreeNode (cfg : NavConfig) (oct : Option FOctreeNode)
    (overlap : Vec3 → Bool) (inFromNode : FIntVector) (fuel : Nat) :
    Option FIntVector :=
  if areCoordinatesValid cfg inFromNode = false then none
  else bfsLoop cfg oct overlap fuel [inFromNode] [inFromNode]

/-- Reachability in the adjacency graph built by `BeginPlay`. -/
inductive Reachable (cfg : NavConfig) : FIntVector → FIntVector → Prop
  | refl (c : FIntVector) : Reachable cfg c c
  | step (a b c : FIntVector) : Reachable cfg a b → c ∈ neighboursOf cfg b →
      Reachable cfg a c

/-! ## A* pathfinder (`FindPath`) -/

/--
One recorded invocation of the live dynamic-overlap test inside the A* main
loop: the neighbour being tested, the tentative g-score just computed for it,
and its best-known g-score at that moment (`none` models the `FLT_MAX`
default of `GetGScore` for a cell with no recorded score).
-/
structure OverlapCheck where
  cell : FIntVector
  tentativeG : ℚ
  existing : Option ℚ
deriving DecidableEq, Repr

/-- Lookup in an association list (the `std::unordered_map` of the source). -/
def lookupA {α β : Type} [DecidableEq α] : List (α × β) → α → Option β
  | [], _ => none
  | (k, v) :: rest, key => if key = k then some v else lookupA rest key

/-- Insert-or-overwrite in an association list. -/
def setA {α β : Type} [DecidableEq α] : List (α × β) → α → β → List (α × β)
  | [], k, v => [(k, v)]
  | (k1, v1) :: rest, k, v =>
    if k = k1 then (k, v) :: rest else (k1, v1) :: setA rest k v

/--
The comparison `TentativeG < ExistingScore` of the A* loop, where a missing
g-score entry stands for `FLT_MAX` (any finite tentative score beats it).
-/
def ltG (t : ℚ) : Option ℚ → Bool
  | none => true
  | some e => decide (t < e)

/-- The `FScore` lookup for the priority queue; the field is initialised to `0`. -/
def getF (fScores : List (FIntVector × ℚ)) (c : FIntVector) : ℚ :=
  (lookupA fScores c).getD 0

/--
Removal of a minimum-`FScore` element, the model of `OpenSet.top()/pop()` of
the `std::priority_queue` ordered by `NavNodeCompare` (ascending `FScore`;
ties and the effect of `FScore` mutations after push are
implementation-defined in the source, modelled as first-minimum).
-/
def popMinAux (f : FIntVector → ℚ) : List FIntVector →
    Option (FIntVector × List FIntVector)
  | [] => none
  | c :: rest =>
    match popMinAux f rest with
    | none => some (c, rest)
    | some (m, r) => if f c ≤ f m then some (c, rest) else some (m, c :: r)

/--
The mutable search state of `FindPath`: the open set (queue contents), the
per-node `FScore` fields, the `GScores` and `CameFrom` maps, and the
`Visited` set.
-/
structure AStarState where
  openSet : List FIntVector
  fScores : List (FIntVector × ℚ)
  gScores : List (FIntVector × ℚ)
  cameFrom : List (FIntVector × FIntVector)
  visited : List FIntVector

/--
The fixed inputs of one A* run: the volume configuration, the octree root,
the live-overlap oracle, the metric used both as edge cost (`GetDistance`)
and heuristic (`GetHeuristic`, distance to the goal; `FVector::Distance` in
the source), and the resolved start and goal cells.
-/
structure AStarCtx where
  cfg : NavConfig
  oct : Option FOctreeNode
  overlap : Vec3 → Bool
  metric : FIntVector → FIntVector → ℚ
  startCell : FIntVector
  goalCell : FIntVector

/--
The path-reconstruction loop of `FindPath`: while `CameFrom` has an entry for
the current node, prepend the current node's cell-center world position and
step to its predecessor.  The C++ `while` is bounded here by the number of
`CameFrom` entries, which a predecessor chain cannot exceed without
repeating.
-/
def reconstructLoop (cfg : NavConfig) (cameFrom : List (FIntVector × FIntVector)) :
    Nat → FIntVector → List Vec3 → List Vec3
  | 0, _, acc => acc
  | fuel + 1, cur, acc =>
    match lookupA cameFrom cur with
    | some p =>
      reconstructLoop cfg cameFrom fuel p
        (convertGridCoordinatesToWorldLocation cfg cur :: acc)
    | none => acc

/--
The neighbour-evaluation body of the A* main loop: skip a neighbour blocked
in the octree; compute the tentative g through the popped node (whose g-score
`cg` was read once before the loop); when it strictly improves on the
neighbour's best-known g, invoke the live overlap test (recorded in the
trace) and, unless overlapped, record the predecessor, g-score and `FScore`
and push the neighbour when it is not in `Visited`.
-/
def processNeighbour (ctx : AStarCtx) (cur : FIntVector) (cg : ℚ)
    (acc : AStarState × List OverlapCheck) (n : FIntVector) :
    AStarState × List OverlapCheck :=
  let st := acc.1
  let nWorld := convertGridCoordinatesToWorldLocation ctx.cfg n
  if ctx.oct.isSome && queryPointBlocked ctx.oct nWorld then acc
  else
    let tentativeG := cg + ctx.metric cur n
    let existing := lookupA st.gScores n
    if ltG tentativeG existing then
      let tr := acc.2 ++ [⟨n, tentativeG, existing⟩]
      if ctx.overlap nWorld then (st, tr)
      else
        ({ openSet := if n ∈ st.visited then st.openSet else st.openSet ++ [n],
           fScores := setA st.fScores n (tentativeG + ctx.metric n ctx.goalCell),
           gScores := setA st.gScores n tentativeG,
           cameFrom := setA st.cameFrom n cur,
           visited := st.visited }, tr)
    else acc

/--
The A* main loop of `FindPath` with explicit fuel: pop a minimum-`FScore`
node, insert it into `Visited`; if it is the goal, reconstruct and return the
path (goal waypoint, predecessor chain, then the start cell's waypoint
prepended); otherwise read its g-score once and evaluate all its neighbours.
The second component is the trace of live-overlap invocations of the loop.
A node popped without a recorded g-score has `CurrentGScore = FLT_MAX`, so no
tentative score can improve any neighbour and the iteration changes nothing
(this situation does not arise: every queued node was given a g-score).
-/
def astarLoop (ctx : AStarCtx) : Nat → AStarState →
    Option (List Vec3) × List OverlapCheck
  | 0, _ => (none, [])
  | fuel + 1, st =>
    match popMinAux (getF st.fScores) st.openSet with
    | none => (none, [])
    | some (cur, restOpen) =>
      let visited1 := if cur ∈ st.visited then st.visited else st.visited ++ [cur]
      let st1 : AStarState :=
        { st with openSet := restOpen, visited := visited1 }
      if cur = ctx.goalCell then
        (some (convertGridCoordinatesToWorldLocation ctx.cfg ctx.startCell ::
          reconstructLoop ctx.cfg st1.cameFrom st1.cameFrom.length ctx.goalCell
            [convertGridCoordinatesToWorldLocation ctx.cfg ctx.goalCell]), [])
      else
        match lookupA st1.gScores cur with
        | none => astarLoop ctx fuel st1
        | some cg =>
          let pr := (neighboursOf ctx.cfg cur).foldl (processNeighbour ctx cur cg)
            (st1, [])
          let res := astarLoop ctx fuel pr.1
          (res.1, pr.2 ++ res.2)

/--
Goal finalisation of `FindPath` (the two relocation blocks before the A*
setup): a goal statically blocked in the octree is moved to the nearest free
node, failing when none exists; an unblocked goal that is dynamically
overlapped is likewise moved; otherwise the goal stands.
-/
def resolveGoal (cfg : NavConfig) (oct : Option FOctreeNode)
    (overlap : Vec3 → Bool) (fuel : Nat) (goalCell : FIntVector) :
    Option FIntVector :=
  if oct.isSome &&
      queryPointBlocked oct (convertGridCoordinatesToWorldLocation cfg goalCell) then
    findNearestFreeNode cfg oct overlap goalCell fuel
  else if overlap (convertGridCoordinatesToWorldLocation cfg goalCell) then
    findNearestFreeNode cfg oct overlap goalCell fuel
  else some goalCell

/--
Model of `AOctNavVolume3D::FindPath`: resolve the start and destination world points
to grid nodes (failure when `GetNode` gives null), finalise the goal
(failure when no free goal exists), then run the A* loop from the start
node.  Returns the success flag and the `OutPath` waypoint array — reset on
entry, filled only in the goal-reached branch — plus the trace of
live-overlap invocations made by the A* main loop.
-/
def findPath (cfg : NavConfig) (oct : Option FOctreeNode) (overlap : Vec3 → Bool)
    (metric : FIntVector → FIntVector → ℚ) (inStart inDestination : Vec3)
    (fuel : Nat) : Bool × List Vec3 × List OverlapCheck :=
  match getNode cfg (convertWorldLocationToGridCoordinates cfg inStart),
        getNode cfg (convertWorldLocationToGridCoordinates cfg inDestination) with
  | some startCell, some goalCell0 =>
    match resolveGoal cfg oct overlap fuel goalCell0 with
    | none => (false, [], [])
    | some goalCell =>
      let ctx : AStarCtx := ⟨cfg, oct, overlap, metric, startCell, goalCell⟩
      let st0 : AStarState :=
        ⟨[startCell], [(startCell, metric startCell goalCell)],
         [(startCell, 0)], [], []⟩
      match astarLoop ctx fuel st0 with
      | (some path, tr) => (true, path, tr)
      | (none, tr) => (false, [], tr)
  | _, _ => (false, [], [])

/-! ## Association list and queue lemmas -/

/-- Lookup after insert at the inserted key. -/
theorem lookupA_setA_self {α β : Type} [DecidableEq α] :
    ∀ (m : List (α × β)) (k : α) (v : β), lookupA (setA m k v) k = some v := by
  intro m k v
  induction m with
  | nil => simp [setA, lookupA]
  | cons kv rest ih =>
    obtain ⟨k1, v1⟩ := kv
    by_cases h : k = k1
    · simp [setA, lookupA, h]
    · simp [setA, lookupA, h, ih]

/-- Lookup after insert at another key. -/
theorem lookupA_setA_ne {α β : Type} [DecidableEq α] {k' k : α} (hne : k' ≠ k) :
    ∀ (m : List (α × β)) (v : β), lookupA (setA m k v) k' = lookupA m k' := by
  intro m v
  induction m with
  | nil => simp [setA, lookupA, hne]
  | cons kv rest ih =>
    obtain ⟨k1, v1⟩ := kv
    by_cases h : k = k1
    · subst h
      simp [setA, lookupA, hne]
    · by_cases h2 : k' = k1 <;> simp [setA, lookupA, h, h2, ih]

/-- Insert never removes keys. -/
theorem lookupA_setA_isSome {α β : Type} [DecidableEq α] {m : List (α × β)}
    {c k : α} {v : β} (h : (lookupA m c).isSome = true) :
    (lookupA (setA m k v) c).isSome = true := by
  by_cases hck : c = k
  · subst hck
    simp [lookupA_setA_self]
  · rwa [lookupA_setA_ne hck]

/-- A successful lookup needs a nonempty list. -/
theorem lookupA_some_ne_nil {α β : Type} [DecidableEq α] {m : List (α × β)}
    {c : α} {v : β} (h : lookupA m c = some v) : m ≠ [] := by
  intro hnil
  subst hnil
  simp [lookupA] at h

/-- The popped element is in the queue and the rest is included in it. -/
theorem popMinAux_mem {f : FIntVector → ℚ} :
    ∀ {l : List FIntVector} {m : FIntVector} {r : List FIntVector},
      popMinAux f l = some (m, r) → m ∈ l ∧ ∀ x ∈ r, x ∈ l := by
  intro l
  induction l with
  | nil => intro m r h; simp [popMinAux] at h
  | cons c rest ih =>
    intro m r h
    simp only [popMinAux] at h
    rcases hrec : popMinAux f rest with _ | ⟨m', r'⟩
    · rw [hrec] at h
      simp only [Option.some.injEq, Prod.mk.injEq] at h
      obtain ⟨rfl, rfl⟩ := h
      exact ⟨by simp, fun x hx => by simp [hx]⟩
    · rw [hrec] at h
      rcases ih hrec with ⟨hm', hr'⟩
      by_cases hle : f c ≤ f m'
      · simp only [hle, if_true, Option.some.injEq, Prod.mk.injEq] at h
        obtain ⟨rfl, rfl⟩ := h
        exact ⟨by simp, fun x hx => by simp [hx]⟩
      · simp only [hle, if_false, Option.some.injEq, Prod.mk.injEq] at h
        obtain ⟨rfl, rfl⟩ := h
        refine ⟨by simp [hm'], fun x hx => ?_⟩
        rcases List.mem_cons.mp hx with hx | hx
        · simp [hx]
        · simp [hr' x hx]

/-! ## Claim C8: failures are ordinary values with empty output -/

/-- Elements put in the BFS queue by one enqueue pass come from the old queue or the neighbour list. -/
theorem bfsFold_mem :
    ∀ (nbrs : List FIntVector) (acc : List FIntVector × List FIntVector)
      (x : FIntVector),
      x ∈ (nbrs.foldl
        (fun (acc : List FIntVector × List FIntVector) nb =>
          if nb ∈ acc.2 then acc else (acc.1 ++ [nb], acc.2 ++ [nb])) acc).1 →
      x ∈ acc.1 ∨ x ∈ nbrs := by
  intro nbrs
  induction nbrs with
  | nil => intro acc x h; exact Or.inl h
  | cons nb nbrs ih =>
    intro acc x h
    simp only [List.foldl_cons] at h
    rcases ih _ x h with h1 | h1
    · by_cases hnb : nb ∈ acc.2
      · simp only [hnb, if_true] at h1
        exact Or.inl h1
      · simp only [hnb, if_false] at h1
        rcases List.mem_append.mp h1 with h1 | h1
        · exact Or.inl h1
        · simp only [List.mem_singleton] at h1
          exact Or.inr (by simp [h1])
    · exact Or.inr (by simp [h1])

/--
When every cell reachable from the seed is blocked or overlapped, the BFS
loop can only exhaust its queue: it never returns a node (auxiliary,
invariant: every queued cell is reachable from the seed).
-/
theorem bfsLoop_all_blocked_none (cfg : NavConfig) (oct : Option FOctreeNode)
    (overlap : Vec3 → Bool) (seed : FIntVector)
    (hblock : ∀ n, Reachable cfg seed n → cellBlockedB cfg oct overlap n = true) :
    ∀ (fuel : Nat) (queue visited : List FIntVector),
      (∀ c ∈ queue, Reachable cfg seed c) →
      bfsLoop cfg oct overlap fuel queue visited = none := by
  intro fuel
  induction fuel with
  | zero => intro queue visited _; rfl
  | succ fuel ih =>
    intro queue visited hq
    cases queue with
    | nil => rfl
    | cons cur rest =>
      have hcur : Reachable cfg seed cur := hq cur (by simp)
      have hblk := hblock cur hcur
      unfold cellBlockedB at hblk
      simp only [bfsLoop]
      rw [if_neg (by simp only [← Bool.not_or, hblk, Bool.not_true]; simp)]
      apply ih
      intro c hc
      rcases bfsFold_mem _ _ c hc with h | h
      · exact hq c (by simp [h])
      · exact Reachable.step seed cur c hcur h

/--
C8: failure is an ordinary result value, never an exception.  First
conjunct: whenever `FindPath` returns `false` — start/goal node missing,
no free goal found at resolution, or the A* queue exhausted — the `OutPath`
array it filled is empty.  Second conjunct: when every cell reachable from
the seed is blocked or overlapped, `FindNearestFreeNode` returns null
(`none`) rather than throwing.
-/
theorem c8_failures_are_values :
    (∀ (cfg : NavConfig) (oct : Option FOctreeNode) (overlap : Vec3 → Bool)
       (metric : FIntVector → FIntVector → ℚ) (s d : Vec3) (fuel : Nat)
       (b : Bool) (p : List Vec3) (tr : List OverlapCheck),
       findPath cfg oct overlap metric s d fuel = (b, p, tr) → b = false → p = []) ∧
    (∀ (cfg : NavConfig) (oct : Option FOctreeNode) (overlap : Vec3 → Bool)
       (seed : FIntVector) (fuel : Nat),
       (∀ n, Reachable cfg seed n → cellBlockedB cfg oct overlap n = true) →
       findNearestFreeNode cfg oct overlap seed fuel = none) := by
  constructor
  · intro cfg oct overlap metric s d fuel b p tr h hb
    subst hb
    unfold findPath at h
    split at h
    · split at h
      · simp only [Prod.mk.injEq] at h
        exact h.2.1.symm
      · simp only at h
        split at h
        · simp only [Prod.mk.injEq] at h
          exact absurd h.1 (by simp)
        · simp only [Prod.mk.injEq] at h
          exact h.2.1.symm
    · simp only [Prod.mk.injEq] at h
      exact h.2.1.symm
  · intro cfg oct overlap seed fuel hblock
    unfold findNearestFreeNode
    split
    · rfl
    · apply bfsLoop_all_blocked_none cfg oct overlap seed hblock
      intro c hc
      simp only [List.mem_singleton] at hc
      rw [hc]
      exact Reachable.refl _

/-! ### Concrete pathfinding configurations for witnesses -/

/-- A single-cell volume with unit cells at the origin. -/
def cfg111 : NavConfig :=
  { divisionsX := 1, divisionsY := 1, divisionsZ := 1,
    divisionSize := 1, minSharedNeighborAxes := 0, origin := ⟨0, 0, 0⟩ }

/-- A two-cell (1x1x2) volume with unit cells at the origin. -/
def cfg112 : NavConfig :=
  { divisionsX := 1, divisionsY := 1, divisionsZ := 2,
    divisionSize := 1, minSharedNeighborAxes := 0, origin := ⟨0, 0, 0⟩ }

/-- A constant unit metric (any metric works for the pathfinder theorems). -/
def metricOne : FIntVector → FIntVector → ℚ := fun _ _ => 1

/-- A single blocked octree leaf covering the unit volume. -/
def blockedLeafW : FOctreeNode := .mk ⟨⟨0, 0, 0⟩, ⟨1, 1, 1⟩⟩ true true []

/--
C8 witness: a `FindPath` call that fails (the goal is statically blocked and
no free node exists) leaves the output empty, and `FindNearestFreeNode`
under an everywhere-true overlap oracle returns `none`.
-/
theorem c8_witness :
    (findPath cfg111 (some blockedLeafW) (fun _ => true) metricOne
      ⟨1/2, 1/2, 1/2⟩ ⟨1/2, 1/2, 1/2⟩ 5).2.1 = [] ∧
    findNearestFreeNode cfg111 none (fun _ => true) ⟨0, 0, 0⟩ 5 = none :=
  ⟨c8_failures_are_values.1 cfg111 (some blockedLeafW) (fun _ => true) metricOne
      ⟨1/2, 1/2, 1/2⟩ ⟨1/2, 1/2, 1/2⟩ 5 _ _ _ rfl (by with_unfolding_all decide),
   c8_failures_are_values.2 cfg111 none (fun _ => true) ⟨0, 0, 0⟩ 5
      (by intro n _; simp [cellBlockedB])⟩

/-! ## Claim C9: the overlap test fires only on strict improvement -/

/-- Every trace entry produced by the neighbour fold passed its strict-improvement guard. -/
theorem processNeighbour_fold_trace (ctx : AStarCtx) (cur : FIntVector) (cg : ℚ) :
    ∀ (l : List FIntVector) (acc : AStarState × List OverlapCheck),
      (∀ e ∈ acc.2, ltG e.tentativeG e.existing = true) →
      ∀ e ∈ (l.foldl (processNeighbour ctx cur cg) acc).2,
        ltG e.tentativeG e.existing = true := by
  intro l
  induction l with
  | nil => intro acc hacc e he; exact hacc e he
  | cons n l ih =>
    intro acc hacc e he
    simp only [List.foldl_cons] at he
    refine ih _ ?_ e he
    intro e2 he2
    simp only [processNeighbour] at he2
    split_ifs at he2 with h1 h2 h3
    all_goals try exact hacc e2 he2
    all_goals dsimp only at he2
    all_goals rcases List.mem_append.mp he2 with h | h
    all_goals try exact hacc e2 h
    all_goals simp only [List.mem_singleton] at h
    all_goals subst h
    all_goals exact h2

/--
C9: during the A* main loop, every invocation of the live dynamic-overlap
test happens under the strict-improvement guard: each recorded check carries
a tentative g-score strictly below the neighbour's best-known g-score at
that moment (`TentativeG < ExistingScore`, with a missing score standing for
`FLT_MAX`); a neighbour already reached via a cheaper route is never
re-checked for dynamic obstacles.
-/
theorem c9_overlap_only_on_improvement (ctx : AStarCtx) (fuel : Nat)
    (st : AStarState) :
    ∀ e ∈ (astarLoop ctx fuel st).2, ltG e.tentativeG e.existing = true := by
  induction fuel generalizing st with
  | zero => intro e he; simp [astarLoop] at he
  | succ fuel ih =>
    intro e he
    rcases hpop : popMinAux (getF st.fScores) st.openSet with _ | ⟨cur, restOpen⟩
    · simp [astarLoop, hpop] at he
    · simp only [astarLoop, hpop] at he
      by_cases hgoal : cur = ctx.goalCell
      · simp [hgoal] at he
      · simp only [hgoal, if_false] at he
        rcases hg : lookupA st.gScores cur with _ | cg
        · rw [hg] at he
          exact ih _ e he
        · rw [hg] at he
          rcases List.mem_append.mp he with he | he
          · exact processNeighbour_fold_trace ctx cur cg _ _ (by simp) e he
          · exact ih _ e he

/-- The A* context of the C9 witness run: two stacked cells, no obstacles. -/
def ctxC9 : AStarCtx :=
  ⟨cfg112, none, fun _ => false, metricOne, ⟨0, 0, 0⟩, ⟨0, 0, 1⟩⟩

/-- The initial A* state of the C9 witness run. -/
def stC9 : AStarState :=
  ⟨[⟨0, 0, 0⟩], [(⟨0, 0, 0⟩, 1)], [(⟨0, 0, 0⟩, 0)], [], []⟩

/--
C9 witness: the single overlap check of the two-cell run was performed with
tentative g-score `1` against a missing (`FLT_MAX`) best-known score.
-/
theorem c9_witness : ltG (1 : ℚ) none = true :=
  c9_overlap_only_on_improvement ctxC9 5 stC9 ⟨⟨0, 0, 1⟩, 1, none⟩
    (by with_unfolding_all decide)

/-! ## Claim C2: shape of a successful path -/

/--
Invariant of the A* state: the start node keeps g-score `0`, all recorded
g-scores are nonnegative, the start node never acquires a predecessor, and
every queued node is the start node or has a predecessor recorded.
-/
def StInv (startCell : FIntVector) (st : AStarState) : Prop :=
  lookupA st.gScores startCell = some 0 ∧
  (∀ c q, lookupA st.gScores c = some q → 0 ≤ q) ∧
  lookupA st.cameFrom startCell = none ∧
  (∀ c, c ∈ st.openSet → c = startCell ∨ (lookupA st.cameFrom c).isSome = true)

/-- One neighbour-evaluation step preserves the A* state invariant. -/
theorem processNeighbour_inv (ctx : AStarCtx) (cur : FIntVector) (cg : ℚ)
    (hmet : ∀ a b, 0 ≤ ctx.metric a b) (hcg : 0 ≤ cg)
    (acc : AStarState × List OverlapCheck) (n : FIntVector)
    (hinv : StInv ctx.startCell acc.1) :
    StInv ctx.startCell (processNeighbour ctx cur cg acc n).1 := by
  obtain ⟨hg0, hgnn, hcf0, hopen⟩ := hinv
  simp only [processNeighbour]
  by_cases h1 : (ctx.oct.isSome &&
      queryPointBlocked ctx.oct (convertGridCoordinatesToWorldLocation ctx.cfg n)) = true
  · rw [if_pos h1]
    exact ⟨hg0, hgnn, hcf0, hopen⟩
  · rw [if_neg h1]
    by_cases h2 : ltG (cg + ctx.metric cur n) (lookupA acc.1.gScores n) = true
    · rw [if_pos h2]
      by_cases h3 : ctx.overlap (convertGridCoordinatesToWorldLocation ctx.cfg n) = true
      · rw [if_pos h3]
        exact ⟨hg0, hgnn, hcf0, hopen⟩
      · rw [if_neg h3]
        have hne : n ≠ ctx.startCell := by
          intro hEq
          rw [hEq, hg0] at h2
          simp only [ltG, decide_eq_true_eq] at h2
          have hm := hmet cur ctx.startCell
          linarith
        dsimp only
        refine ⟨?_, ?_, ?_, ?_⟩
        · rw [lookupA_setA_ne (Ne.symm hne)]
          exact hg0
        · intro c q hq
          by_cases hcn : c = n
          · subst hcn
            rw [lookupA_setA_self] at hq
            have hq' := Option.some.inj hq
            rw [← hq']
            exact add_nonneg hcg (hmet cur c)
          · rw [lookupA_setA_ne hcn] at hq
            exact hgnn c q hq
        · rw [lookupA_setA_ne (Ne.symm hne)]
          exact hcf0
        · intro c hc
          by_cases hcv : n ∈ acc.1.visited
          · simp only [hcv, if_true] at hc
            rcases hopen c hc with h | h
            · exact Or.inl h
            · exact Or.inr (lookupA_setA_isSome h)
          · simp only [hcv, if_false] at hc
            rcases List.mem_append.mp hc with h | h
            · rcases hopen c h with h' | h'
              · exact Or.inl h'
              · exact Or.inr (lookupA_setA_isSome h')
            · simp only [List.mem_singleton] at h
              subst h
              rw [lookupA_setA_self]
              exact Or.inr rfl
    · rw [if_neg h2]
      exact ⟨hg0, hgnn, hcf0, hopen⟩

/-- The whole neighbour fold preserves the A* state invariant. -/
theorem processNeighbour_fold_inv (ctx : AStarCtx) (cur : FIntVector) (cg : ℚ)
    (hmet : ∀ a b, 0 ≤ ctx.metric a b) (hcg : 0 ≤ cg) :
    ∀ (l : List FIntVector) (acc : AStarState × List OverlapCheck),
      StInv ctx.startCell acc.1 →
      StInv ctx.startCell (l.foldl (processNeighbour ctx cur cg) acc).1 := by
  intro l
  induction l with
  | nil => intro acc h; exact h
  | cons n l ih =>
    intro acc h
    simp only [List.foldl_cons]
    exact ih _ (processNeighbour_inv ctx cur cg hmet hcg acc n h)

/-- A node with no predecessor entry reconstructs to the accumulator alone. -/
theorem reconstructLoop_none (cfg : NavConfig)
    (cameFrom : List (FIntVector × FIntVector)) (cur : FIntVector)
    (h : lookupA cameFrom cur = none) :
    ∀ (fuel : Nat) (acc : List Vec3),
      reconstructLoop cfg cameFrom fuel cur acc = acc := by
  intro fuel acc
  cases fuel with
  | zero => rfl
  | succ fuel => simp [reconstructLoop, h]

/-- Path reconstruction only prepends: the accumulator stays a suffix. -/
theorem reconstructLoop_suffix (cfg : NavConfig)
    (cameFrom : List (FIntVector × FIntVector)) :
    ∀ (fuel : Nat) (cur : FIntVector) (acc : List Vec3),
      ∃ pre, reconstructLoop cfg cameFrom fuel cur acc = pre ++ acc := by
  intro fuel
  induction fuel with
  | zero => intro cur acc; exact ⟨[], rfl⟩
  | succ fuel ih =>
    intro cur acc
    simp only [reconstructLoop]
    rcases hl : lookupA cameFrom cur with _ | p
    · exact ⟨[], rfl⟩
    · rcases ih p (convertGridCoordinatesToWorldLocation cfg cur :: acc) with ⟨pre, hpre⟩
      refine ⟨pre ++ [convertGridCoordinatesToWorldLocation cfg cur], ?_⟩
      dsimp only
      rw [hpre]
      simp

/--
Shape of every successful A* run (auxiliary): under the state invariant, a
returned path ends with the goal waypoint twice, and is exactly those two
identical waypoints when the goal is the start.
-/
theorem astarLoop_shape (ctx : AStarCtx) (hmet : ∀ a b, 0 ≤ ctx.metric a b) :
    ∀ (fuel : Nat) (st : AStarState), StInv ctx.startCell st →
      ∀ (p : List Vec3), (astarLoop ctx fuel st).1 = some p →
      (∃ pre, p = pre ++
          [convertGridCoordinatesToWorldLocation ctx.cfg ctx.goalCell,
           convertGridCoordinatesToWorldLocation ctx.cfg ctx.goalCell]) ∧
      (ctx.goalCell = ctx.startCell →
        p = [convertGridCoordinatesToWorldLocation ctx.cfg ctx.goalCell,
             convertGridCoordinatesToWorldLocation ctx.cfg ctx.goalCell]) := by
  intro fuel
  induction fuel with
  | zero => intro st _ p h; simp [astarLoop] at h
  | succ fuel ih =>
    intro st hinv p h
    obtain ⟨hg0, hgnn, hcf0, hopen⟩ := hinv
    rcases hpop : popMinAux (getF st.fScores) st.openSet with _ | ⟨cur, restOpen⟩
    · simp [astarLoop, hpop] at h
    · have hmem := popMinAux_mem hpop
      simp only [astarLoop, hpop] at h
      by_cases hgoal : cur = ctx.goalCell
      · rw [if_pos hgoal] at h
        simp only [Option.some.injEq] at h
        subst h
        constructor
        · by_cases hgs : ctx.goalCell = ctx.startCell
          · have hnone : lookupA st.cameFrom ctx.goalCell = none := by
              rw [hgs]; exact hcf0
            rw [reconstructLoop_none _ _ _ hnone, hgs]
            exact ⟨[], rfl⟩
          · have hor := hopen cur hmem.1
            rw [hgoal] at hor
            rcases hor with h' | h'
            · exact absurd h' hgs
            · rcases Option.isSome_iff_exists.mp h' with ⟨pr0, hpr0⟩
              have hne : st.cameFrom ≠ [] := lookupA_some_ne_nil hpr0
              obtain ⟨m, hm⟩ : ∃ m, st.cameFrom.length = m + 1 := by
                cases hcf : st.cameFrom with
                | nil => exact absurd hcf hne
                | cons a l => exact ⟨l.length, by simp⟩
              rw [hm]
              simp only [reconstructLoop, hpr0]
              rcases reconstructLoop_suffix ctx.cfg st.cameFrom m pr0
                (convertGridCoordinatesToWorldLocation ctx.cfg ctx.goalCell ::
                 [convertGridCoordinatesToWorldLocation ctx.cfg ctx.goalCell])
                with ⟨pre, hpre⟩
              rw [hpre]
              exact ⟨convertGridCoordinatesToWorldLocation ctx.cfg ctx.startCell :: pre,
                by simp⟩
        · intro hgs
          have hnone : lookupA st.cameFrom ctx.goalCell = none := by
            rw [hgs]; exact hcf0
          rw [reconstructLoop_none _ _ _ hnone, hgs]
      · rw [if_neg hgoal] at h
        rcases hgsc : lookupA st.gScores cur with _ | cg
        · rw [hgsc] at h
          refine ih _ ?_ p h
          exact ⟨hg0, hgnn, hcf0, fun c hc => hopen c (hmem.2 c hc)⟩
        · rw [hgsc] at h
          dsimp only at h
          apply ih _ ?_ p h
          apply processNeighbour_fold_inv ctx cur cg hmet (hgnn cur cg hgsc)
          exact ⟨hg0, hgnn, hcf0, fun c hc => hopen c (hmem.2 c hc)⟩

/--
C2: every successful `FindPath` call returns a waypoint list that ends with
two consecutive equal entries, both the resolved goal cell's world-space
center (the goal waypoint is emitted once by `OutPath.Add` and once more by
the first `OutPath.Insert` of the reconstruction loop); when the resolved
start cell equals the resolved goal cell the output is exactly those two
identical points.  (The metric is assumed nonnegative, as the source's
Euclidean `FVector::Distance` is.)
-/
theorem c2_goal_waypoint_doubled (cfg : NavConfig) (oct : Option FOctreeNode)
    (overlap : Vec3 → Bool) (metric : FIntVector → FIntVector → ℚ)
    (s d : Vec3) (fuel : Nat) (p : List Vec3) (tr : List OverlapCheck)
    (hmet : ∀ a b, 0 ≤ metric a b)
    (hrun : findPath cfg oct overlap metric s d fuel = (true, p, tr)) :
    ∃ sc gc0 gc,
      getNode cfg (convertWorldLocationToGridCoordinates cfg s) = some sc ∧
      getNode cfg (convertWorldLocationToGridCoordinates cfg d) = some gc0 ∧
      resolveGoal cfg oct overlap fuel gc0 = some gc ∧
      (∃ pre, p = pre ++ [convertGridCoordinatesToWorldLocation cfg gc,
                          convertGridCoordinatesToWorldLocation cfg gc]) ∧
      (gc = sc → p = [convertGridCoordinatesToWorldLocation cfg gc,
                      convertGridCoordinatesToWorldLocation cfg gc]) := by
  unfold findPath at hrun
  split at hrun
  · rename_i x1 x2 sc gc0 hs hd
    split at hrun
    · simp at hrun
    · rename_i x3 gc hres
      simp only at hrun
      split at hrun
      · rename_i x4 path tr2 heq
        simp only [Prod.mk.injEq] at hrun
        obtain ⟨-, hp, -⟩ := hrun
        subst hp
        have hinv : StInv sc ⟨[sc], [(sc, metric sc gc)], [(sc, 0)], [], []⟩ := by
          refine ⟨by simp [lookupA], ?_, rfl, ?_⟩
          · intro c q hq
            by_cases hcs : c = sc
            · subst hcs
              have hl : lookupA [(c, (0 : ℚ))] c = some 0 := by simp [lookupA]
              rw [hl] at hq
              exact le_of_eq (Option.some.inj hq)
            · simp [lookupA, hcs] at hq
          · intro c hc
            simp only [List.mem_singleton] at hc
            exact Or.inl hc
        have hshape := astarLoop_shape ⟨cfg, oct, overlap, metric, sc, gc⟩ hmet
          fuel ⟨[sc], [(sc, metric sc gc)], [(sc, 0)], [], []⟩ hinv path
          (by rw [heq])
        exact ⟨sc, gc0, gc, hs, hd, hres, hshape.1, hshape.2⟩
      · simp at hrun
  · simp at hrun

/--
C2 witness: the two-cell run succeeds with the path ending in the goal
waypoint twice.
-/
theorem c2_witness :
    ∃ sc gc0 gc,
      getNode cfg112
        (convertWorldLocationToGridCoordinates cfg112 ⟨1/2, 1/2, 1/2⟩) = some sc ∧
      getNode cfg112
        (convertWorldLocationToGridCoordinates cfg112 ⟨1/2, 1/2, 3/2⟩) = some gc0 ∧
      resolveGoal cfg112 none (fun _ => false) 5 gc0 = some gc ∧
      (∃ pre, [(⟨1/2, 1/2, 1/2⟩ : Vec3), ⟨1/2, 1/2, 3/2⟩, ⟨1/2, 1/2, 3/2⟩] =
        pre ++ [convertGridCoordinatesToWorldLocation cfg112 gc,
                convertGridCoordinatesToWorldLocation cfg112 gc]) ∧
      (gc = sc → [(⟨1/2, 1/2, 1/2⟩ : Vec3), ⟨1/2, 1/2, 3/2⟩, ⟨1/2, 1/2, 3/2⟩] =
        [convertGridCoordinatesToWorldLocation cfg112 gc,
         convertGridCoordinatesToWorldLocation cfg112 gc]) :=
  c2_goal_waypoint_doubled cfg112 none (fun _ => false) metricOne
    ⟨1/2, 1/2, 1/2⟩ ⟨1/2, 1/2, 3/2⟩ 5
    [⟨1/2, 1/2, 1/2⟩, ⟨1/2, 1/2, 3/2⟩, ⟨1/2, 1/2, 3/2⟩] [⟨⟨0, 0, 1⟩, 1, none⟩]
    (fun a b => by norm_num [metricOne]) (by with_unfolding_all decide)

/-! ## Claim C1: out-of-bounds resolution -/

/--
C1 counterexample: a `FindPath` call whose start world point lies far outside
the navigation volume does not fail — the resolution clamps the point into
the grid (`ConvertWorldLocationToGridCoordinates` clamps each floored axis
into `[0, Divisions-1]`) and the call succeeds.
-/
theorem c1_counterexample :
    insideVolume cfg112 ⟨-100, -100, -100⟩ = false ∧
    (findPath cfg112 none (fun _ => false) metricOne ⟨-100, -100, -100⟩
      ⟨1/2, 1/2, 1/2⟩ 5).1 = true := by
  with_unfolding_all decide

/-- Clamping lands inside the interval when the interval is nonempty. -/
theorem fclamp_mem (v lo hi : Int) (h : lo ≤ hi) :
    lo ≤ fclamp v lo hi ∧ fclamp v lo hi ≤ hi := by
  unfold fclamp
  split_ifs <;> omega

/--
For a nonempty grid, `GetNode` never returns null: the clamped flat index is
always inside the allocated array.
-/
theorem getNode_isSome (cfg : NavConfig) (c : FIntVector)
    (hx : 1 ≤ cfg.divisionsX) (hy : 1 ≤ cfg.divisionsY) (hz : 1 ≤ cfg.divisionsZ) :
    (getNode cfg c).isSome = true := by
  unfold getNode clampCoordinatesToGrid
  have hcx := fclamp_mem c.x 0 (cfg.divisionsX - 1) (by omega)
  have hcy := fclamp_mem c.y 0 (cfg.divisionsY - 1) (by omega)
  have hcz := fclamp_mem c.z 0 (cfg.divisionsZ - 1) (by omega)
  set a := fclamp c.x 0 (cfg.divisionsX - 1) with ha
  set b := fclamp c.y 0 (cfg.divisionsY - 1) with hb
  set e := fclamp c.z 0 (cfg.divisionsZ - 1) with he
  have hdx0 : (0 : Int) ≤ cfg.divisionsX := by omega
  have hdy0 : (0 : Int) ≤ cfg.divisionsY := by omega
  have hxy : (0 : Int) ≤ cfg.divisionsX * cfg.divisionsY := mul_nonneg hdx0 hdy0
  have hz1 : e * (cfg.divisionsX * cfg.divisionsY) ≤
      (cfg.divisionsZ - 1) * (cfg.divisionsX * cfg.divisionsY) :=
    mul_le_mul_of_nonneg_right hcz.2 hxy
  have hy1 : b * cfg.divisionsX ≤ (cfg.divisionsY - 1) * cfg.divisionsX :=
    mul_le_mul_of_nonneg_right hcy.2 hdx0
  have hz0 : (0 : Int) ≤ e * (cfg.divisionsX * cfg.divisionsY) :=
    mul_nonneg hcz.1 hxy
  have hy0 : (0 : Int) ≤ b * cfg.divisionsX := mul_nonneg hcy.1 hdx0
  have hring : (cfg.divisionsZ - 1) * (cfg.divisionsX * cfg.divisionsY) +
      (cfg.divisionsY - 1) * cfg.divisionsX + (cfg.divisionsX - 1) =
      cfg.divisionsX * cfg.divisionsY * cfg.divisionsZ - 1 := by ring
  rw [if_neg]
  · rfl
  · push_neg
    constructor
    · linarith [hcx.1]
    · linarith [hcx.2]

/--
C1 amended: resolution of a start or goal world point never fails and never
reports an error — `ConvertWorldLocationToGridCoordinates` silently clamps
every world point (in or out of bounds) to a valid in-grid cell, and
`GetNode` on the result is always non-null, so `FindPath` proceeds with the
clamped cells instead of failing.
-/
theorem c1_amended_resolution_clamps (cfg : NavConfig) (p : Vec3)
    (hx : 1 ≤ cfg.divisionsX) (hy : 1 ≤ cfg.divisionsY) (hz : 1 ≤ cfg.divisionsZ) :
    areCoordinatesValid cfg (convertWorldLocationToGridCoordinates cfg p) = true ∧
    (getNode cfg (convertWorldLocationToGridCoordinates cfg p)).isSome = true := by
  constructor
  · have hcx := fclamp_mem ⌊(subV p cfg.origin).x / cfg.divisionSize⌋ 0
      (cfg.divisionsX - 1) (by omega)
    have hcy := fclamp_mem ⌊(subV p cfg.origin).y / cfg.divisionSize⌋ 0
      (cfg.divisionsY - 1) (by omega)
    have hcz := fclamp_mem ⌊(subV p cfg.origin).z / cfg.divisionSize⌋ 0
      (cfg.divisionsZ - 1) (by omega)
    simp only [areCoordinatesValid, convertWorldLocationToGridCoordinates,
      Bool.and_eq_true, decide_eq_true_eq]
    refine ⟨⟨⟨⟨⟨?_, ?_⟩, ?_⟩, ?_⟩, ?_⟩, ?_⟩ <;> omega
  · exact getNode_isSome cfg _ hx hy hz

/-- C1 witness: the far-out point of the counterexample resolves to a valid cell. -/
theorem c1_witness :
    areCoordinatesValid cfg112
      (convertWorldLocationToGridCoordinates cfg112 ⟨-100, -100, -100⟩) = true ∧
    (getNode cfg112
      (convertWorldLocationToGridCoordinates cfg112 ⟨-100, -100, -100⟩)).isSome = true :=
  c1_amended_resolution_clamps cfg112 ⟨-100, -100, -100⟩
    (by decide) (by decide) (by decide)
